import Mathlib

/-!
Shallow embedding of the valtracker core (event normalizer, aggregation
engine, report summary) together with proofs of the behavioural claims.

Python dictionaries are modelled as insertion-ordered association lists,
scalar JSON field values as the type `Val`, and the stateful accumulation
loops as folds.  Stable descending sorts (Python `sorted(..., reverse=True)`
and pandas `value_counts`) are modelled by a stable insertion sort.
-/

namespace Valtracker

/-- Scalar JSON-like value carried in a field of a raw telemetry record. -/
inductive Val where
  | null
  | str (s : String)
  | int (n : Int)
  | bool (b : Bool)
deriving DecidableEq

/-- Python truthiness of a scalar value (`None`, `""`, `0`, `False` are falsy). -/
def Val.truthy : Val → Bool
  | .null => false
  | .str s => !(s == "")
  | .int n => !(n == 0)
  | .bool b => b

/-- A decoded record or document: field name to value, in insertion order. -/
abbrev PyDict := List (String × Val)

/-- Python `d.get(k)`: the value of the first matching key, if present. -/
def pyGet (d : PyDict) (k : String) : Option Val :=
  (d.find? (fun kv => kv.fst == k)).map Prod.snd

/-- Python `d.get(k, dflt)`. -/
def pyGetD (d : PyDict) (k : String) (dflt : Val) : Val :=
  (pyGet d k).getD dflt

/-- Python `a or b` on values: `a` if truthy, else `b`. -/
def pyOr (a b : Val) : Val := if a.truthy then a else b

/-- Python `str(v)` as it appears inside an f-string. -/
def pyStr : Val → String
  | .null => "None"
  | .str s => s
  | .int n => toString n
  | .bool b => if b then "True" else "False"

/-- Python list-of-chars prefix test, used for substring containment. -/
def charStarts : List Char → List Char → Bool
  | [], _ => true
  | _ :: _, [] => false
  | p :: ps, c :: cs => p == c && charStarts ps cs

/-- Containment of `pat` in `s` as a list of characters. -/
def charContains (s pat : List Char) : Bool :=
  match s with
  | [] => charStarts pat []
  | _ :: rest => charStarts pat s || charContains rest pat

/-- Python `pat in s` on strings. -/
def strContains (s pat : String) : Bool :=
  charContains s.data pat.data

/-- Python `s.lower()`. -/
def strLower (s : String) : String :=
  String.mk (s.data.map Char.toLower)

/-- Stable insertion (descending by `key`): `x` is placed before the first
element whose key it is greater than or equal to, so that among equal keys
earlier elements stay first. -/
def insertKeyDesc {α : Type} (key : α → Int) (x : α) : List α → List α
  | [] => [x]
  | y :: ys => if key y ≤ key x then x :: y :: ys else y :: insertKeyDesc key x ys

/-- Stable sort, descending by `key`; models Python
`sorted(..., key=..., reverse=True)` (a stable sort). -/
def sortKeyDesc {α : Type} (key : α → Int) (l : List α) : List α :=
  l.foldr (insertKeyDesc key) []

/-- Lexicographic comparison of strings as code-point lists (Python string
ordering). -/
def charLe : List Char → List Char → Bool
  | [], _ => true
  | _ :: _, [] => false
  | a :: as, b :: bs => if a == b then charLe as bs else decide (a < b)

/-- Ascending insertion for strings. -/
def insertStrAsc (x : String) : List String → List String
  | [] => [x]
  | y :: ys => if charLe x.data y.data then x :: y :: ys else y :: insertStrAsc x ys

/-- Python `sorted` on a list of strings (lexicographic ascending). -/
def sortStrings (l : List String) : List String :=
  l.foldr insertStrAsc []

/-- Distinct values of a list in order of first appearance. -/
def firstSeen {α : Type} [DecidableEq α] : List α → List α
  | [] => []
  | a :: rest => a :: firstSeen (rest.filter (fun b => !(b == a)))
termination_by xs => xs.length
decreasing_by
  simp only [List.length_cons]
  exact Nat.lt_succ_of_le (List.length_filter_le _ _)

/-- pandas `Series.value_counts().to_dict()`: occurrence counts of the
distinct values, sorted by count descending (ties kept in first-appearance
order). -/
def value_counts {α : Type} [DecidableEq α] (xs : List α) : List (α × Nat) :=
  sortKeyDesc (fun p => (p.2 : Int)) ((firstSeen xs).map (fun v => (v, xs.count v)))

/-- Append `v` to the group of key `k`, creating the group at the end if the
key is new; models insertion into a `defaultdict(list)`. -/
def addToGroup {β : Type} (gs : List (Val × List β)) (k : Val) (v : β) : List (Val × List β) :=
  match gs with
  | [] => [(k, [v])]
  | (q, xs) :: rest =>
    if q = k then (q, xs ++ [v]) :: rest else (q, xs) :: addToGroup rest k v

/-- Round a rational to the nearest integer, ties to even; models Python
`round` applied to an exact value. -/
def pyRoundInt (y : ℚ) : ℤ :=
  if y - ⌊y⌋ < 1/2 then ⌊y⌋
  else if 1/2 < y - ⌊y⌋ then ⌊y⌋ + 1
  else if Even ⌊y⌋ then ⌊y⌋ else ⌊y⌋ + 1

/-- Python `round(q, 1)`: round to one decimal place, ties to even. -/
def pyRound1 (q : ℚ) : ℚ := (pyRoundInt (q * 10) : ℚ) / 10

/-! ## Event normalizer (`src/backend/app/parsers.py`, `EventParser`) -/

/-- Extracted spike-plant fact (`_extract_plant_info`). -/
structure PlantInfo where
  map : Val
  site : Val
  round : Val
  timestamp : Val
  round_time : Val
  raw_event : PyDict
deriving DecidableEq

/-- Extracted kill fact (`_extract_kill_info`). -/
structure KillInfo where
  killer : Val
  victim : Val
  round : Val
  timestamp : Val
  round_time : Val
  raw_event : PyDict
deriving DecidableEq

/-- Diagnostic schema preview captured from the first parsed record. -/
structure SchemaPreview where
  sample_keys : List String
  file : String
deriving DecidableEq

/-- Result of `EventParser.parse_events`: the structured per-match facts. -/
structure ParseResult where
  spike_plants : List PlantInfo
  kills : List KillInfo
  events_by_round : List (Val × List PyDict)
  schema_preview : Option SchemaPreview
deriving DecidableEq

/-- Python `event.get("event_type", "").lower()`: the lower-cased type
indicator; `none` models the `AttributeError` raised when the field holds a
non-string value (which the per-file handler catches). -/
def event_type_lower (event : PyDict) : Option String :=
  match pyGetD event "event_type" (Val.str "") with
  | .str s => some (strLower s)
  | _ => none

/-- `EventParser._is_spike_plant`: type indicator contains "plant", or the
secondary "type" field equals "plant_spike". -/
def is_spike_plant (event : PyDict) : Option Bool :=
  (event_type_lower event).map
    (fun t => strContains t "plant" || decide (pyGet event "type" = some (Val.str "plant_spike")))

/-- `EventParser._is_kill`: type indicator contains "kill", or the secondary
"type" field equals "kill". -/
def is_kill (event : PyDict) : Option Bool :=
  (event_type_lower event).map
    (fun t => strContains t "kill" || decide (pyGet event "type" = some (Val.str "kill")))

/-- `EventParser._extract_plant_info`.  The source wraps the body in
`try/except` and returns `None` on an extraction error; every operation in
the body is a total dictionary lookup, so the embedding always succeeds. -/
def extract_plant_info (event : PyDict) : Option PlantInfo :=
  some
    { map := pyOr (pyGetD event "map" Val.null)
        (pyOr (pyGetD event "map_name" Val.null) (Val.str "unknown"))
    , site := pyGetD event "site" (Val.str "unknown")
    , round := pyGetD event "round_id" Val.null
    , timestamp := pyGetD event "timestamp" Val.null
    , round_time := pyGetD event "round_time" Val.null
    , raw_event := event }

/-- `EventParser._extract_kill_info`, under the same `try/except` remark. -/
def extract_kill_info (event : PyDict) : Option KillInfo :=
  some
    { killer := pyOr (pyGetD event "killer" Val.null) (pyGetD event "killer_name" Val.null)
    , victim := pyOr (pyGetD event "victim" Val.null) (pyGetD event "victim_name" Val.null)
    , round := pyGetD event "round_id" Val.null
    , timestamp := pyGetD event "timestamp" Val.null
    , round_time := pyGetD event "round_time" Val.null
    , raw_event := event }

/-- A line of an events JSONL file: blank, invalid JSON, or a decoded
record. -/
inductive Line where
  | blank
  | malformed
  | ok (event : PyDict)
deriving DecidableEq

/-- The body of the per-line loop of `parse_events` for one decoded record:
schema-preview capture, plant and kill classification and extraction, and
round grouping.  The boolean is `false` when the body raised (non-string
type indicator), in which case the state changes made before the raise are
kept, matching mutation order in the source. -/
def processEvent (fname : String) (st : ParseResult) (event : PyDict) : ParseResult × Bool :=
  let st1 := if st.schema_preview.isNone then
      { st with schema_preview := some ⟨(event.map Prod.fst).take 10, fname⟩ }
    else st
  match is_spike_plant event with
  | none => (st1, false)
  | some isPlant =>
    let st2 := if isPlant then
        match extract_plant_info event with
        | some plant => { st1 with spike_plants := st1.spike_plants ++ [plant] }
        | none => st1
      else st1
    match is_kill event with
    | none => (st2, false)
    | some isK =>
      let st3 := if isK then
          match extract_kill_info event with
          | some kill => { st2 with kills := st2.kills ++ [kill] }
          | none => st2
        else st2
      let round_id := pyGetD event "round_id" (Val.str "unknown")
      ({ st3 with events_by_round := addToGroup st3.events_by_round round_id event }, true)

/-- Per-file loop of `parse_events`.  The `try` in the source wraps the
whole loop over the lines of one file, so the first error (a line that is
not valid JSON, or a raising record) stops the file; the state accumulated
before it is kept. -/
def processFile (fname : String) (st : ParseResult) : List Line → ParseResult
  | [] => st
  | .blank :: rest => processFile fname st rest
  | .malformed :: _ => st
  | .ok event :: rest =>
    match processEvent fname st event with
    | (st2, true) => processFile fname st2 rest
    | (st2, false) => st2

/-- `EventParser.parse_events`, over the already-globbed list of JSONL
files of one match (file name and decoded lines). -/
def parse_events (files : List (String × List Line)) : ParseResult :=
  if files.isEmpty then
    { spike_plants := [], kills := [], events_by_round := [], schema_preview := none }
  else
    files.foldl (fun st f => processFile f.1 st f.2)
      { spike_plants := [], kills := [], events_by_round := [], schema_preview := none }

/-! ## Aggregation engine (`src/backend/app/insights.py`, `TacticalInsights`) -/

/-- A map descriptor from a match's end-state: a mapping, a plain string,
or some other (non-mapping, non-string) value. -/
inductive MapDesc where
  | dict (fs : List (String × Val))
  | str (s : String)
  | other (v : Val)
deriving DecidableEq

/-- Per-team composition data from the end-state normalizer
(`comp_data.get("agents", [])`). -/
structure CompData where
  agents : List String
deriving DecidableEq

/-- The slice of one match bundle read by the aggregation engine:
`series["events"]["spike_plants"]`, `series["events"]["kills"]`,
`series["end_state"]["maps"]` and `series["end_state"]["comps"]`.
Absent keys are represented by empty lists. -/
structure SeriesBundle where
  spike_plants : List PyDict
  kills : List PyDict
  maps : List MapDesc
  comps : List (Val × CompData)
deriving DecidableEq

/-- Result shape of `analyze_maps_played`. -/
structure MapPool where
  maps : List (Val × Nat)
  total : Nat
deriving DecidableEq

/-- Name resolution in `analyze_maps_played`:
`map_info.get("name") or map_info.get("map_name")` for mappings, the string
itself for strings, and the literal "unknown" otherwise. -/
def map_descriptor_name : MapDesc → Val
  | .dict fs => pyOr (pyGetD fs "name" Val.null) (pyGetD fs "map_name" Val.null)
  | .str s => Val.str s
  | .other _ => Val.str "unknown"

/-- `TacticalInsights.analyze_maps_played`: flatten the resolved, truthy map
names across every match, then count. -/
def analyze_maps_played (series_data : List SeriesBundle) : MapPool :=
  let maps := series_data.foldl
    (fun acc series => series.maps.foldl
      (fun acc2 map_info =>
        let map_name := map_descriptor_name map_info
        if map_name.truthy then acc2 ++ [map_name] else acc2) acc) []
  if maps.isEmpty then { maps := [], total := 0 }
  else { maps := value_counts maps, total := maps.length }

/-- Per-map site distribution: counts, percentages, total. -/
structure SiteStats where
  counts : List (Val × Nat)
  percentages : List (Val × ℚ)
  total : Nat
deriving DecidableEq

/-- The per-map statistics block shared by the two site views:
`value_counts`, total, and `round(count / total * 100, 1)` per site. -/
def mkSiteStats (sites : List Val) : SiteStats :=
  let site_counts := value_counts sites
  let total := sites.length
  { counts := site_counts
  , percentages := site_counts.map
      (fun kv => (kv.1, pyRound1 ((kv.2 : ℚ) / (total : ℚ) * 100)))
  , total := total }

/-- `TacticalInsights.analyze_plant_sites`: group spike-plant sites by map
(first-appearance key order), then build per-map site statistics. -/
def analyze_plant_sites (series_data : List SeriesBundle) : List (Val × SiteStats) :=
  let plants_by_map := series_data.foldl
    (fun gs series => series.spike_plants.foldl
      (fun gs2 plant =>
        addToGroup gs2 (pyGetD plant "map" (Val.str "unknown"))
          (pyGetD plant "site" (Val.str "unknown"))) gs) []
  plants_by_map.filterMap
    (fun g => if g.2.isEmpty then none else some (g.1, mkSiteStats g.2))

/-- `TacticalInsights.analyze_attack_site_preference`: the source duplicates
the plant-site computation verbatim (plant data as proxy for attack
preference). -/
def analyze_attack_site_preference (series_data : List SeriesBundle) : List (Val × SiteStats) :=
  let plants_by_map := series_data.foldl
    (fun gs series => series.spike_plants.foldl
      (fun gs2 plant =>
        addToGroup gs2 (pyGetD plant "map" (Val.str "unknown"))
          (pyGetD plant "site" (Val.str "unknown"))) gs) []
  plants_by_map.filterMap
    (fun g => if g.2.isEmpty then none else some (g.1, mkSiteStats g.2))

/-- One row of the opening-duel table. -/
structure DuelEntry where
  player : Val
  first_kills : Nat
  first_deaths : Nat
  net : Int
deriving DecidableEq

/-- Increment the kill counter of `p` in the accumulator, inserting the
player at the end on first encounter (`defaultdict` access order). -/
def add_kill (stats : List (Val × Nat × Nat)) (p : Val) : List (Val × Nat × Nat) :=
  match stats with
  | [] => [(p, 1, 0)]
  | (q, k, d) :: rest =>
    if q = p then (q, k + 1, d) :: rest else (q, k, d) :: add_kill rest p

/-- Increment the death counter of `p` in the accumulator. -/
def add_death (stats : List (Val × Nat × Nat)) (p : Val) : List (Val × Nat × Nat) :=
  match stats with
  | [] => [(p, 0, 1)]
  | (q, k, d) :: rest =>
    if q = p then (q, k, d + 1) :: rest else (q, k, d) :: add_death rest p

/-- Accumulation loop of `analyze_opening_duels`: for every kill fact, bump
the killer's kill counter and the victim's death counter when truthy. -/
def duel_accum (series_data : List SeriesBundle) : List (Val × Nat × Nat) :=
  series_data.foldl
    (fun st series => series.kills.foldl
      (fun st2 kill =>
        let killer := pyGetD kill "killer" Val.null
        let victim := pyGetD kill "victim" Val.null
        let st3 := if killer.truthy then add_kill st2 killer else st2
        if victim.truthy then add_death st3 victim else st3) st) []

/-- The unsorted duel table: truthy players other than the literal
"unknown", with `net = first_kills - first_deaths`. -/
def duel_entries (series_data : List SeriesBundle) : List DuelEntry :=
  (duel_accum series_data).filterMap
    (fun s =>
      if s.1.truthy = true ∧ s.1 ≠ Val.str "unknown" then
        some { player := s.1, first_kills := s.2.1, first_deaths := s.2.2
             , net := (s.2.1 : Int) - (s.2.2 : Int) }
      else none)

/-- `TacticalInsights.analyze_opening_duels`: the duel table sorted by net
descending (stable). -/
def analyze_opening_duels (series_data : List SeriesBundle) : List DuelEntry :=
  sortKeyDesc (fun e => e.net) (duel_entries series_data)

/-- Per-map composition counts. -/
structure CompStats where
  compositions : List (String × Nat)
  total : Nat
deriving DecidableEq

/-- Result shape of `analyze_comp_frequency`. -/
structure CompFrequency where
  by_map : List (Val × CompStats)
  insufficient_data : Bool
deriving DecidableEq

/-- Map-name resolution in `analyze_comp_frequency`:
`map_info.get("name") if isinstance(map_info, dict) else map_info`. -/
def comp_map_name : MapDesc → Val
  | .dict fs => pyGetD fs "name" Val.null
  | .str s => Val.str s
  | .other v => v

/-- Composition signature: agent names sorted lexicographically, joined
with "+". -/
def comp_sig (agents : List String) : String :=
  String.intercalate "+" (sortStrings agents)

/-- Innermost loop of `analyze_comp_frequency`: append the signature of
every non-empty team composition to the group of `mname`. -/
def comp_team_fold (comps : List (Val × CompData)) (mname : Val)
    (gs : List (Val × List String)) : List (Val × List String) :=
  comps.foldl
    (fun gs3 tc =>
      if tc.2.agents.isEmpty then gs3
      else addToGroup gs3 mname (comp_sig tc.2.agents)) gs

/-- Per-series step of `analyze_comp_frequency`: only matches with both map
data and comp data contribute; every listed map gets every team's
signature. -/
def comp_series_step (gs : List (Val × List String)) (series : SeriesBundle) :
    List (Val × List String) :=
  if series.maps.isEmpty || series.comps.isEmpty then gs
  else series.maps.foldl
    (fun gs2 map_info => comp_team_fold series.comps (comp_map_name map_info) gs2) gs

/-- Signature accumulation of `analyze_comp_frequency`. -/
def comp_groups (series_data : List SeriesBundle) : List (Val × List String) :=
  series_data.foldl comp_series_step []

/-- `TacticalInsights.analyze_comp_frequency`: per-map signature counts plus
the insufficient-data flag (`true` while no group has a non-empty list). -/
def analyze_comp_frequency (series_data : List SeriesBundle) : CompFrequency :=
  let gs := comp_groups series_data
  { by_map := gs.filterMap
      (fun g => if g.2.isEmpty then none
        else some (g.1, { compositions := value_counts g.2, total := g.2.length }))
  , insufficient_data := gs.all (fun g => g.2.isEmpty) }

/-! ## Report summary (`src/app/report.py`, `ReportGenerator._section_summary`) -/

/-- Python `max(items, key=lambda x: x[1])` on a non-empty association
list: the first entry with the maximal count. -/
def maxBySnd (l : List (Val × Nat)) : Option (Val × Nat) :=
  match l with
  | [] => none
  | x :: xs => some (xs.foldl (fun best y => if best.2 < y.2 then y else best) x)

/-- Python `f"{net:+d}"`: an integer rendered with an explicit sign. -/
def signedInt (n : Int) : String :=
  if n < 0 then toString n else "+" ++ toString n

/-- `ReportGenerator._section_summary`: the TL;DR key-takeaways lines.  The
primary-site line is produced from the first entry of the
attack-site-preference mapping in its iteration order
(`list(attack_site_preference.items())[:1]`). -/
def section_summary (maps_played : MapPool) (attack_site_preference : List (Val × SiteStats))
    (opening_duels : List DuelEntry) : List String :=
  let header : List String := ["## TL;DR - Key Takeaways", ""]
  let mapLine : List String :=
    match maxBySnd maps_played.maps with
    | some mp => ["- **Most played map:** " ++ pyStr mp.1 ++ " (" ++ toString mp.2 ++ " times)"]
    | none => []
  let siteLine : List String :=
    match attack_site_preference.take 1 with
    | [] => []
    | (map_name, data) :: _ =>
      match maxBySnd data.counts with
      | some mc => ["- **Primary site (" ++ pyStr map_name ++ "):** " ++ pyStr mc.1]
      | none => []
  let playerLine : List String :=
    match opening_duels with
    | [] => []
    | top :: _ =>
      ["- **Strongest duel player:** " ++ pyStr top.player ++ " (Net: " ++ signedInt top.net ++ ")"]
  header ++ mapLine ++ siteLine ++ playerLine ++ [""]

/-! ## Concrete inputs used to instantiate and to refute individual claims -/

/-- A decoded kill record placed after a malformed line. -/
def c1_kill_event : PyDict :=
  [("event_type", Val.str "kill"), ("killer", Val.str "X"), ("victim", Val.str "Y")]

/-- A single-file event stream whose first line is invalid JSON. -/
def c1_files : List (String × List Line) :=
  [("events.jsonl", [Line.malformed, Line.ok c1_kill_event])]

/-- One match whose end-state lists a single mapping-shaped map descriptor
with no name field. -/
def c3_series : List SeriesBundle :=
  [{ spike_plants := [], kills := [], maps := [MapDesc.dict []], comps := [] }]

/-- One match with kills X over Y and Y over X. -/
def c4_series : List SeriesBundle :=
  [{ spike_plants := []
   , kills := [ [("killer", Val.str "X"), ("victim", Val.str "Y")]
              , [("killer", Val.str "Y"), ("victim", Val.str "X")] ]
   , maps := [], comps := [] }]

/-- The leading entry of the duel table for `c4_series`. -/
def c4_entry : DuelEntry :=
  { player := Val.str "X", first_kills := 1, first_deaths := 1, net := 0 }

/-- One match with map data but no composition data. -/
def c5_series : List SeriesBundle :=
  [{ spike_plants := [], kills := [], maps := [MapDesc.str "Ascent"], comps := [] }]

/-- One match with a single spike plant on Bind, site A. -/
def c6_series : List SeriesBundle :=
  [{ spike_plants := [[("map", Val.str "Bind"), ("site", Val.str "A")]]
   , kills := [], maps := [], comps := [] }]

/-- The site distribution computed for Bind from `c6_series`. -/
def c6_stats : SiteStats :=
  { counts := [(Val.str "A", 1)]
  , percentages := [(Val.str "A", 100)]
  , total := 1 }

/-- A spike-plant record whose "site" key is present with a null value. -/
def c7_event : PyDict := [("event_type", Val.str "spike_plant"), ("site", Val.null)]

/-- A spike-plant record with an empty-string "map", a "map_name" and a
"site". -/
def c7w_event : PyDict :=
  [("map", Val.str ""), ("map_name", Val.str "Bind"), ("site", Val.str "A")]

/-- The fact extracted from `c7w_event`. -/
def c7w_plant : PlantInfo :=
  { map := Val.str "Bind", site := Val.str "A", round := Val.null
  , timestamp := Val.null, round_time := Val.null, raw_event := c7w_event }

/-- An attack-site-preference view whose first entry in iteration order is
Bind while the lexicographically-first map name is Ascent. -/
def c8_pref : List (Val × SiteStats) :=
  [ (Val.str "Bind",
      { counts := [(Val.str "A", 2), (Val.str "B", 1)], percentages := [], total := 3 })
  , (Val.str "Ascent",
      { counts := [(Val.str "B", 3)], percentages := [], total := 3 }) ]

/-! ## Structural lemmas about the sorting, counting and rounding helpers -/

theorem mem_insertKeyDesc {α : Type} (key : α → Int) (x a : α) (l : List α) :
    a ∈ insertKeyDesc key x l ↔ a = x ∨ a ∈ l := by
  induction l with
  | nil => simp [insertKeyDesc]
  | cons y ys ih =>
    simp only [insertKeyDesc]
    by_cases h : key y ≤ key x
    · simp [h]
    · simp only [h, if_false, List.mem_cons, ih]
      tauto

theorem mem_sortKeyDesc {α : Type} (key : α → Int) (a : α) (l : List α) :
    a ∈ sortKeyDesc key l ↔ a ∈ l := by
  induction l with
  | nil => simp [sortKeyDesc]
  | cons y ys ih =>
    simp only [sortKeyDesc, List.foldr_cons] at ih ⊢
    rw [mem_insertKeyDesc, ih, List.mem_cons]

theorem pairwise_insertKeyDesc {α : Type} (key : α → Int) (x : α) (l : List α)
    (h : l.Pairwise (fun a b => key b ≤ key a)) :
    (insertKeyDesc key x l).Pairwise (fun a b => key b ≤ key a) := by
  induction l with
  | nil => simp [insertKeyDesc]
  | cons y ys ih =>
    simp only [insertKeyDesc]
    rcases List.pairwise_cons.mp h with ⟨hy, hys⟩
    by_cases hc : key y ≤ key x
    · rw [if_pos hc]
      refine List.pairwise_cons.mpr ⟨?_, h⟩
      intro b hb
      rcases List.mem_cons.mp hb with rfl | hb
      · exact hc
      · exact le_trans (hy b hb) hc
    · rw [if_neg hc]
      refine List.pairwise_cons.mpr ⟨?_, ih hys⟩
      intro b hb
      rcases (mem_insertKeyDesc key x b ys).mp hb with rfl | hb
      · exact le_of_not_le hc
      · exact hy b hb

theorem pairwise_sortKeyDesc {α : Type} (key : α → Int) (l : List α) :
    (sortKeyDesc key l).Pairwise (fun a b => key b ≤ key a) := by
  induction l with
  | nil => simp [sortKeyDesc]
  | cons y ys ih =>
    exact pairwise_insertKeyDesc key y _ ih

theorem filter_insertKeyDesc {α : Type} (key : α → Int) (x : α) (l : List α) (v : Int) :
    (insertKeyDesc key x l).filter (fun a => decide (key a = v)) =
      if key x = v then x :: l.filter (fun a => decide (key a = v))
      else l.filter (fun a => decide (key a = v)) := by
  induction l with
  | nil =>
    by_cases h : key x = v <;> simp [insertKeyDesc, List.filter, h]
  | cons y ys ih =>
    simp only [insertKeyDesc]
    by_cases hc : key y ≤ key x
    · rw [if_pos hc]
      by_cases h : key x = v
      · rw [if_pos h, List.filter_cons, List.filter_cons]
        simp [h]
      · rw [if_neg h, List.filter_cons, List.filter_cons]
        simp [h]
    · rw [if_neg hc]
      have hyx : key x < key y := lt_of_not_le hc
      by_cases h : key x = v
      · have hy : ¬ key y = v := by omega
        rw [if_pos h] at ih ⊢
        rw [List.filter_cons, List.filter_cons, ih]
        simp [hy]
      · rw [if_neg h] at ih ⊢
        rw [List.filter_cons, List.filter_cons, ih]

theorem filter_sortKeyDesc {α : Type} (key : α → Int) (l : List α) (v : Int) :
    (sortKeyDesc key l).filter (fun a => decide (key a = v)) =
      l.filter (fun a => decide (key a = v)) := by
  induction l with
  | nil => rfl
  | cons y ys ih =>
    simp only [sortKeyDesc, List.foldr_cons] at ih ⊢
    rw [filter_insertKeyDesc, List.filter_cons]
    by_cases h : key y = v <;> simp [h, ih]

theorem perm_insertKeyDesc {α : Type} (key : α → Int) (x : α) (l : List α) :
    List.Perm (insertKeyDesc key x l) (x :: l) := by
  induction l with
  | nil => simp [insertKeyDesc]
  | cons y ys ih =>
    simp only [insertKeyDesc]
    by_cases hc : key y ≤ key x
    · simp [hc]
    · simp only [hc, if_false]
      exact ((ih.cons y).trans (List.Perm.swap x y ys))

theorem perm_sortKeyDesc {α : Type} (key : α → Int) (l : List α) :
    List.Perm (sortKeyDesc key l) l := by
  induction l with
  | nil => simp [sortKeyDesc]
  | cons y ys ih =>
    simp only [sortKeyDesc, List.foldr_cons] at ih ⊢
    exact (perm_insertKeyDesc key y _).trans (ih.cons y)

theorem mem_firstSeen {α : Type} [DecidableEq α] (a : α) :
    ∀ (xs : List α), a ∈ firstSeen xs → a ∈ xs := by
  intro xs
  induction xs using firstSeen.induct with
  | case1 => simp [firstSeen]
  | case2 b rest ih =>
    intro h
    rw [firstSeen] at h
    rcases List.mem_cons.mp h with rfl | h
    · exact List.mem_cons_self a rest
    · exact List.mem_cons_of_mem b (List.mem_of_mem_filter (ih h))

theorem sum_map_count_filter {α : Type} [DecidableEq α] (a : α) (rest : List α) :
    ∀ (d : List α), (∀ b ∈ d, b ≠ a) →
      (d.map (fun v => rest.count v)).sum =
        (d.map (fun v => (rest.filter (fun b => !(b == a))).count v)).sum := by
  intro d hd
  congr 1
  apply List.map_congr_left
  intro b hb
  have hba : b ≠ a := hd b hb
  rw [List.count_filter]
  simp [hba]

theorem countP_add_countP_not {α : Type} (p : α → Bool) (l : List α) :
    l.countP p + l.countP (fun a => !(p a)) = l.length := by
  induction l with
  | nil => simp
  | cons a rest ih =>
    rw [List.countP_cons, List.countP_cons, List.length_cons]
    cases h : p a <;> simp [h] <;> omega

theorem sum_counts_firstSeen {α : Type} [DecidableEq α] :
    ∀ (xs : List α), ((firstSeen xs).map (fun v => xs.count v)).sum = xs.length := by
  intro xs
  induction xs using firstSeen.induct with
  | case1 => simp [firstSeen]
  | case2 a rest ih =>
    rw [firstSeen]
    simp only [List.map_cons, List.sum_cons, List.length_cons]
    have hne : ∀ b ∈ firstSeen (rest.filter (fun c => !(c == a))), b ≠ a := by
      intro b hb hba
      have h1 := mem_firstSeen b _ hb
      rw [List.mem_filter] at h1
      rcases h1 with ⟨_, h1b⟩
      rw [hba] at h1b
      simp at h1b
    have hcount : ∀ b ∈ firstSeen (rest.filter (fun c => !(c == a))),
        (a :: rest).count b = rest.count b := by
      intro b hb
      rw [List.count_cons]
      have : (a == b) = false := by
        have := hne b hb
        simp [Ne.symm this]
      simp [this]
    rw [List.map_congr_left hcount, sum_map_count_filter a rest _ hne, ih]
    rw [List.count_cons_self]
    have hsplit : (rest.filter (fun c => !(c == a))).length + rest.count a = rest.length := by
      rw [← List.countP_eq_length_filter, List.count_eq_countP, Nat.add_comm]
      exact countP_add_countP_not (fun c => c == a) rest
    omega

theorem sum_value_counts {α : Type} [DecidableEq α] (xs : List α) :
    ((value_counts xs).map Prod.snd).sum = xs.length := by
  have hperm := (perm_sortKeyDesc (fun p : α × Nat => (p.2 : Int))
      ((firstSeen xs).map (fun v => (v, xs.count v)))).map Prod.snd
  rw [value_counts, hperm.sum_eq, List.map_map]
  have : (Prod.snd ∘ fun v => (v, xs.count v)) = fun v => xs.count v := rfl
  rw [this, sum_counts_firstSeen]

theorem abs_pyRoundInt_sub (y : ℚ) : |(pyRoundInt y : ℚ) - y| ≤ 1/2 := by
  have hfl : (⌊y⌋ : ℚ) ≤ y := Int.floor_le y
  have hfu : y < (⌊y⌋ : ℚ) + 1 := Int.lt_floor_add_one y
  rw [pyRoundInt]
  by_cases h1 : y - ⌊y⌋ < 1/2
  · rw [if_pos h1, abs_le]
    constructor <;> linarith
  · rw [if_neg h1]
    by_cases h2 : 1/2 < y - ⌊y⌋
    · rw [if_pos h2]
      rw [abs_le]
      push_cast
      constructor <;> linarith
    · rw [if_neg h2]
      have heq : y - ⌊y⌋ = 1/2 := le_antisymm (le_of_not_lt h2) (le_of_not_lt h1)
      by_cases h3 : Even ⌊y⌋
      · rw [if_pos h3, abs_le]
        constructor <;> linarith
      · rw [if_neg h3, abs_le]
        push_cast
        constructor <;> linarith

theorem abs_pyRound1_sub (q : ℚ) : |pyRound1 q - q| ≤ 1/20 := by
  have h := abs_pyRoundInt_sub (q * 10)
  rw [pyRound1]
  have heq : (pyRoundInt (q * 10) : ℚ) / 10 - q = ((pyRoundInt (q * 10) : ℚ) - q * 10) / 10 := by
    ring
  rw [heq, abs_div]
  have h10 : |(10 : ℚ)| = 10 := by norm_num
  rw [h10]
  linarith

theorem abs_sum_map_pyRound1_sub (l : List ℚ) :
    |(l.map pyRound1).sum - l.sum| ≤ (l.length : ℚ) * (1/20) := by
  induction l with
  | nil => simp
  | cons q rest ih =>
    simp only [List.map_cons, List.sum_cons, List.length_cons]
    have h1 := abs_pyRound1_sub q
    have htri : |pyRound1 q + (rest.map pyRound1).sum - (q + rest.sum)|
        ≤ |pyRound1 q - q| + |(rest.map pyRound1).sum - rest.sum| := by
      have : pyRound1 q + (rest.map pyRound1).sum - (q + rest.sum)
          = (pyRound1 q - q) + ((rest.map pyRound1).sum - rest.sum) := by ring
      rw [this]
      exact abs_add _ _
    have hlen : ((rest.length + 1 : Nat) : ℚ) = (rest.length : ℚ) + 1 := by push_cast; ring
    rw [hlen]
    calc |pyRound1 q + (rest.map pyRound1).sum - (q + rest.sum)|
        ≤ |pyRound1 q - q| + |(rest.map pyRound1).sum - rest.sum| := htri
      _ ≤ 1/20 + (rest.length : ℚ) * (1/20) := by
          exact add_le_add h1 ih
      _ = ((rest.length : ℚ) + 1) * (1/20) := by ring

theorem processFile_append_malformed (fname : String) (st : ParseResult) (pre post : List Line) :
    processFile fname st (pre ++ Line.malformed :: post) = processFile fname st pre := by
  induction pre generalizing st with
  | nil => simp [processFile]
  | cons l rest ih =>
    cases l with
    | blank =>
      simp only [List.cons_append, processFile]
      exact ih st
    | malformed => simp [processFile]
    | ok event =>
      simp only [List.cons_append, processFile]
      rcases hpe : processEvent fname st event with ⟨st2, b⟩
      cases b
      · rfl
      · exact ih st2

theorem maps_fold_collect (ms : List MapDesc) (acc : List Val) :
    ms.foldl
      (fun acc2 map_info =>
        let map_name := map_descriptor_name map_info
        if map_name.truthy then acc2 ++ [map_name] else acc2) acc
    = acc ++ (ms.filter (fun mi => (map_descriptor_name mi).truthy)).map map_descriptor_name := by
  induction ms generalizing acc with
  | nil => simp
  | cons mi rest ih =>
    simp only [List.foldl_cons, List.filter_cons]
    cases hc : (map_descriptor_name mi).truthy <;> simp [hc, ih]

theorem series_fold_collect (sd : List SeriesBundle) (acc : List Val) :
    sd.foldl
      (fun acc series => series.maps.foldl
        (fun acc2 map_info =>
          let map_name := map_descriptor_name map_info
          if map_name.truthy then acc2 ++ [map_name] else acc2) acc) acc
    = acc ++ (((sd.map (fun s => s.maps)).flatten).filter
        (fun mi => (map_descriptor_name mi).truthy)).map map_descriptor_name := by
  induction sd generalizing acc with
  | nil => simp
  | cons s rest ih =>
    simp only [List.foldl_cons, List.map_cons, List.flatten_cons]
    rw [maps_fold_collect, ih, List.filter_append, List.map_append, List.append_assoc]

theorem allEmpty_addToGroup {β : Type} (gs : List (Val × List β)) (k : Val) (v : β) :
    ((addToGroup gs k v).all (fun g => g.2.isEmpty)) = false := by
  induction gs with
  | nil => simp [addToGroup]
  | cons g rest ih =>
    obtain ⟨q, xs⟩ := g
    rw [addToGroup]
    by_cases h : q = k
    · rw [if_pos h]
      simp
    · rw [if_neg h]
      simp [ih]

theorem allEmpty_comp_team_fold (comps : List (Val × CompData)) (mname : Val)
    (gs : List (Val × List String)) :
    ((comp_team_fold comps mname gs).all (fun g => g.2.isEmpty))
      = (gs.all (fun g => g.2.isEmpty) && comps.all (fun tc => tc.2.agents.isEmpty)) := by
  induction comps generalizing gs with
  | nil => simp [comp_team_fold]
  | cons tc rest ih =>
    rw [comp_team_fold, List.foldl_cons]
    by_cases h : tc.2.agents.isEmpty
    · rw [if_pos h]
      have hfold : rest.foldl
          (fun gs3 tc =>
            if tc.2.agents.isEmpty then gs3 else addToGroup gs3 mname (comp_sig tc.2.agents)) gs
          = comp_team_fold rest mname gs := rfl
      rw [hfold, ih]
      simp [h]
    · rw [if_neg h]
      have hfold : rest.foldl
          (fun gs3 tc =>
            if tc.2.agents.isEmpty then gs3 else addToGroup gs3 mname (comp_sig tc.2.agents))
          (addToGroup gs mname (comp_sig tc.2.agents))
          = comp_team_fold rest mname (addToGroup gs mname (comp_sig tc.2.agents)) := rfl
      rw [hfold, ih, allEmpty_addToGroup]
      simp [h]

theorem allEmpty_maps_fold (ms : List MapDesc) (comps : List (Val × CompData))
    (gs : List (Val × List String)) :
    ((ms.foldl (fun gs2 mi => comp_team_fold comps (comp_map_name mi) gs2) gs).all
        (fun g => g.2.isEmpty))
      = (gs.all (fun g => g.2.isEmpty)
          && (ms.isEmpty || comps.all (fun tc => tc.2.agents.isEmpty))) := by
  induction ms generalizing gs with
  | nil => simp
  | cons mi rest ih =>
    rw [List.foldl_cons, ih, allEmpty_comp_team_fold]
    cases hc : comps.all (fun tc => tc.2.agents.isEmpty) <;> simp [hc]

theorem allEmpty_comp_series_step (gs : List (Val × List String)) (s : SeriesBundle) :
    ((comp_series_step gs s).all (fun g => g.2.isEmpty))
      = (gs.all (fun g => g.2.isEmpty)
          && !(!s.maps.isEmpty && !(s.comps.all (fun tc => tc.2.agents.isEmpty)))) := by
  rw [comp_series_step]
  by_cases h : (s.maps.isEmpty || s.comps.isEmpty) = true
  · rw [if_pos h]
    cases hm : s.maps.isEmpty
    · have hsplit : s.maps.isEmpty = true ∨ s.comps.isEmpty = true := by
        simpa using h
      have hcc : s.comps.isEmpty = true := by
        rcases hsplit with h1 | h1
        · rw [hm] at h1
          cases h1
        · exact h1
      have hc2 : s.comps = [] := List.isEmpty_iff.mp hcc
      simp [hm, hc2]
    · simp [hm]
  · rw [if_neg h]
    rw [allEmpty_maps_fold]
    have hm : s.maps.isEmpty = false := by
      cases hmm : s.maps.isEmpty
      · rfl
      · exact absurd (by simp [hmm]) h
    rw [hm]
    cases hc : s.comps.all (fun tc => tc.2.agents.isEmpty) <;> simp [hc]

theorem allEmpty_comp_groups_aux (sd : List SeriesBundle) (gs : List (Val × List String)) :
    ((sd.foldl comp_series_step gs).all (fun g => g.2.isEmpty))
      = (gs.all (fun g => g.2.isEmpty)
          && sd.all (fun s => !(!s.maps.isEmpty && !(s.comps.all (fun tc => tc.2.agents.isEmpty))))) := by
  induction sd generalizing gs with
  | nil => simp
  | cons s rest ih =>
    rw [List.foldl_cons, ih, allEmpty_comp_series_step, List.all_cons, Bool.and_assoc]

theorem sum_map_div_mul (cs : List Nat) (t : ℚ) :
    (cs.map (fun c : Nat => (c : ℚ) / t * 100)).sum = ((cs.sum : ℚ) / t) * 100 := by
  induction cs with
  | nil => simp
  | cons c rest ih =>
    simp only [List.map_cons, List.sum_cons, ih]
    push_cast
    ring

theorem mkSiteStats_pct_bound (sites : List Val) (hs : sites ≠ []) :
    |((mkSiteStats sites).percentages.map Prod.snd).sum - 100|
      ≤ ((mkSiteStats sites).percentages.length : ℚ) * (1/10) := by
  have hpct : (mkSiteStats sites).percentages
      = (value_counts sites).map
          (fun kv => (kv.1, pyRound1 ((kv.2 : ℚ) / (sites.length : ℚ) * 100))) := rfl
  have hmap : (mkSiteStats sites).percentages.map Prod.snd
      = (((value_counts sites).map Prod.snd).map
          (fun c : Nat => (c : ℚ) / (sites.length : ℚ) * 100)).map pyRound1 := by
    rw [hpct, List.map_map, List.map_map, List.map_map]
    rfl
  have hlen : (mkSiteStats sites).percentages.length
      = (((value_counts sites).map Prod.snd).map
          (fun c : Nat => (c : ℚ) / (sites.length : ℚ) * 100)).length := by
    rw [hpct]
    simp
  rw [hmap, hlen]
  have hsum : (((value_counts sites).map Prod.snd).map
        (fun c : Nat => (c : ℚ) / (sites.length : ℚ) * 100)).sum = 100 := by
    rw [sum_map_div_mul, sum_value_counts]
    have hpos : (0 : ℚ) < (sites.length : ℚ) := by
      have h0 : 0 < sites.length := List.length_pos.mpr hs
      exact_mod_cast h0
    field_simp
  have hbound := abs_sum_map_pyRound1_sub
    (((value_counts sites).map Prod.snd).map (fun c : Nat => (c : ℚ) / (sites.length : ℚ) * 100))
  rw [hsum] at hbound
  refine le_trans hbound ?_
  have h20 : (1 : ℚ)/20 ≤ 1/10 := by norm_num
  exact mul_le_mul_of_nonneg_left h20 (Nat.cast_nonneg _)

/-! ## Claim theorems -/

/-- C1 (counterexample): in `parse_events` the `try` wraps the whole
per-file line loop, so a line that is not valid JSON aborts the remainder
of that file: a decoded kill record on the next line of the same stream
contributes neither a kill fact nor a round grouping, contradicting the
claim that subsequent lines of the same stream are still processed. -/
theorem malformed_line_subsequent_lines_dropped :
    is_kill c1_kill_event = some true ∧
    (parse_events c1_files).kills = [] ∧
    (parse_events c1_files).events_by_round = [] := by
  decide

/-- C1 (amended): a raw event line that is not valid structured data ends
the processing of that stream: the overall result equals the result of
parsing the same input with the malformed line and every later line of
that stream removed, so earlier lines of the stream and all other streams
are still processed, and the overall call returns a value rather than
raising. -/
theorem malformed_line_aborts_rest_of_file (before after : List (String × List Line))
    (name : String) (pre post : List Line) :
    parse_events (before ++ (name, pre ++ Line.malformed :: post) :: after)
      = parse_events (before ++ (name, pre) :: after) := by
  rw [parse_events, parse_events, if_neg (by simp), if_neg (by simp),
    List.foldl_append, List.foldl_append, List.foldl_cons, List.foldl_cons]
  congr 1
  exact processFile_append_malformed name _ pre post

/-- C2: `analyze_attack_site_preference` and `analyze_plant_sites` are the
same function: for every input list of match bundles the two views agree as
structured values (both group spike-plant facts by map, count by site, and
compute `round(count / total * 100, 1)` per site). -/
theorem attack_site_preference_eq_plant_sites (series_data : List SeriesBundle) :
    analyze_attack_site_preference series_data = analyze_plant_sites series_data := rfl

/-- C3 (counterexample): a mapping-shaped map descriptor without a truthy
"name" or "map_name" field resolves to a falsy name and is dropped by the
`if map_name:` guard, so the Map Pool total (0 here) is not the number of
map descriptors encountered (1 here). -/
theorem map_pool_nameless_descriptor_not_counted :
    (analyze_maps_played c3_series).total = 0 ∧
    (c3_series.map (fun s => s.maps.length)).sum = 1 := by
  decide

/-- C3 (amended): the Map Pool total equals the sum of all per-map counts,
and equals the number of map descriptors across every match's end-state
whose resolved name is truthy (mapping descriptors resolve via "name" else
"map_name", strings resolve to themselves, other values to the literal
"unknown"; descriptors resolving to a falsy value are dropped, not
counted). -/
theorem map_pool_total_spec (series_data : List SeriesBundle) :
    ((analyze_maps_played series_data).maps.map Prod.snd).sum
        = (analyze_maps_played series_data).total ∧
    (analyze_maps_played series_data).total
      = (((series_data.map (fun s => s.maps)).flatten).filter
          (fun mi => (map_descriptor_name mi).truthy)).length := by
  rw [analyze_maps_played]
  rw [series_fold_collect series_data []]
  rw [List.nil_append]
  by_cases h : ((((series_data.map (fun s => s.maps)).flatten).filter
      (fun mi => (map_descriptor_name mi).truthy)).map map_descriptor_name).isEmpty
  · rw [if_pos h]
    have h2 : (((series_data.map (fun s => s.maps)).flatten).filter
        (fun mi => (map_descriptor_name mi).truthy)) = [] := by
      have := List.isEmpty_iff.mp h
      exact List.map_eq_nil_iff.mp this
    simp [h2]
  · rw [if_neg h]
    refine ⟨sum_value_counts _, ?_⟩
    rw [List.length_map]

/-- C8 (counterexample): the Key Takeaways section reports the primary site
of the first map in the view's iteration order (`Bind` here), not of the
lexicographically-first map (`Ascent`, whose primary-site line is absent
from the section). -/
theorem summary_site_not_lexicographic_cex :
    section_summary { maps := [], total := 0 } c8_pref []
      = ["## TL;DR - Key Takeaways", "", "- **Primary site (Bind):** A", ""] ∧
    (sortStrings (c8_pref.map (fun kv => pyStr kv.1))).head? = some "Ascent" ∧
    ¬ ("- **Primary site (Ascent):** B" ∈ section_summary { maps := [], total := 0 } c8_pref []) := by
  decide

/-- C8 (amended): for every non-empty attack-site-preference view whose
first entry (in the mapping's iteration order) has a non-empty counts
table, the Key Takeaways section shows the primary (first-maximal-count)
site of that first map -- the first-encountered map of the view, not the
lexicographically-first one. -/
theorem summary_primary_site_first_entry (mp : MapPool) (pref : List (Val × SiteStats))
    (od : List DuelEntry) (m : Val) (data : SiteStats) (site : Val) (cnt : Nat)
    (hhead : pref.head? = some (m, data)) (hmax : maxBySnd data.counts = some (site, cnt)) :
    ("- **Primary site (" ++ pyStr m ++ "):** " ++ pyStr site) ∈ section_summary mp pref od := by
  cases pref with
  | nil => cases hhead
  | cons hd tl =>
    have hhd : hd = (m, data) := by
      simpa using hhead
    subst hhd
    simp only [section_summary, List.take, hmax]
    simp [List.mem_append]

/-- C8 (witness): instantiating the amended claim on the two-map view whose
first entry is Bind. -/
theorem summary_primary_site_first_entry_witness :
    ("- **Primary site (" ++ pyStr (Val.str "Bind") ++ "):** " ++ pyStr (Val.str "A"))
      ∈ section_summary { maps := [], total := 0 } c8_pref [] :=
  summary_primary_site_first_entry { maps := [], total := 0 } c8_pref []
    (Val.str "Bind")
    { counts := [(Val.str "A", 2), (Val.str "B", 1)], percentages := [], total := 3 }
    (Val.str "A") 2 (by decide) (by decide)

/-- C9: the five aggregation views are pure, state-free functions of their
input in this embedding (the source keeps no state between calls), so
calling the engine twice on the same unmodified input yields identical
output for every view. -/
theorem insights_idempotent (series_data : List SeriesBundle) :
    ( analyze_maps_played series_data
    , analyze_attack_site_preference series_data
    , analyze_plant_sites series_data
    , analyze_opening_duels series_data
    , analyze_comp_frequency series_data)
    = ( analyze_maps_played series_data
      , analyze_attack_site_preference series_data
      , analyze_plant_sites series_data
      , analyze_opening_duels series_data
      , analyze_comp_frequency series_data) := rfl

/-- C4: every entry of the opening-duel table has net exactly kills minus
deaths and a player other than the literal "unknown"; the table is ordered
descending by net; and entries of equal net keep their accumulation
(first-encountered) order, i.e. the sort is stable over `duel_entries`. -/
theorem opening_duels_spec (series_data : List SeriesBundle) :
    (∀ e ∈ analyze_opening_duels series_data,
        e.net = (e.first_kills : Int) - (e.first_deaths : Int) ∧ e.player ≠ Val.str "unknown") ∧
    (analyze_opening_duels series_data).Pairwise (fun a b => b.net ≤ a.net) ∧
    (∀ v : Int, (analyze_opening_duels series_data).filter (fun e => decide (e.net = v))
        = (duel_entries series_data).filter (fun e => decide (e.net = v))) := by
  refine ⟨?_, pairwise_sortKeyDesc _ _, fun v => filter_sortKeyDesc _ _ v⟩
  intro e he
  rw [analyze_opening_duels, mem_sortKeyDesc] at he
  rw [duel_entries, List.mem_filterMap] at he
  obtain ⟨s, _, hsome⟩ := he
  by_cases h : s.1.truthy = true ∧ s.1 ≠ Val.str "unknown"
  · rw [if_pos h] at hsome
    have he2 := Option.some.inj hsome
    subst he2
    exact ⟨rfl, h.2⟩
  · rw [if_neg h] at hsome
    cases hsome

/-- C4 (witness): the leading row of the duel table for one match with
kills X over Y and Y over X has net 1 - 1 and is not "unknown". -/
theorem opening_duels_spec_witness :
    c4_entry.net = (c4_entry.first_kills : Int) - (c4_entry.first_deaths : Int) ∧
    c4_entry.player ≠ Val.str "unknown" :=
  (opening_duels_spec c4_series).1 c4_entry (by decide)

/-- C7 (counterexample): `event.get("site", "unknown")` substitutes the
default only when the key is absent, so a record whose "site" key is
present with a null value extracts a null site, not the literal "unknown"
demanded by the claim's first-non-null policy. -/
theorem plant_site_present_null_cex :
    is_spike_plant c7_event = some true ∧
    (extract_plant_info c7_event).map PlantInfo.site = some Val.null ∧
    Val.null ≠ Val.str "unknown" := by
  decide

/-- C7 (amended): for a record classified as a spike plant, the extracted
site equals the record's "site" value whenever the key is present -- even
when that value is null -- and is the literal "unknown" only when the key
is absent; the extracted map is the first truthy of "map" and "map_name",
else the literal "unknown" (so a present-but-falsy "map", e.g. an empty
string, also falls through). -/
theorem plant_extraction_policy (event : PyDict) (p : PlantInfo)
    (hp : extract_plant_info event = some p) :
    (∀ v, pyGet event "site" = some v → p.site = v) ∧
    (pyGet event "site" = none → p.site = Val.str "unknown") ∧
    ((pyGetD event "map" Val.null).truthy = true → p.map = pyGetD event "map" Val.null) ∧
    ((pyGetD event "map" Val.null).truthy = false →
      (pyGetD event "map_name" Val.null).truthy = true →
      p.map = pyGetD event "map_name" Val.null) ∧
    ((pyGetD event "map" Val.null).truthy = false →
      (pyGetD event "map_name" Val.null).truthy = false → p.map = Val.str "unknown") := by
  have hp2 := Option.some.inj hp.symm
  subst hp2
  refine ⟨?_, ?_, ?_, ?_, ?_⟩
  · intro v hv
    show pyGetD event "site" (Val.str "unknown") = v
    rw [pyGetD, hv, Option.getD_some]
  · intro hv
    show pyGetD event "site" (Val.str "unknown") = Val.str "unknown"
    rw [pyGetD, hv, Option.getD_none]
  · intro ht
    show pyOr (pyGetD event "map" Val.null)
      (pyOr (pyGetD event "map_name" Val.null) (Val.str "unknown"))
      = pyGetD event "map" Val.null
    rw [pyOr, if_pos ht]
  · intro hf ht
    show pyOr (pyGetD event "map" Val.null)
      (pyOr (pyGetD event "map_name" Val.null) (Val.str "unknown"))
      = pyGetD event "map_name" Val.null
    rw [pyOr, if_neg (by simp [hf]), pyOr, if_pos ht]
  · intro hf1 hf2
    show pyOr (pyGetD event "map" Val.null)
      (pyOr (pyGetD event "map_name" Val.null) (Val.str "unknown"))
      = Val.str "unknown"
    rw [pyOr, if_neg (by simp [hf1]), pyOr, if_neg (by simp [hf2])]

/-- C7 (witness): on a record with an empty-string "map", a "map_name" of
Bind and a "site" of A, the extracted site is A and the extracted map is
Bind (the falsy "map" falls through). -/
theorem plant_extraction_policy_witness :
    c7w_plant.site = Val.str "A" ∧ c7w_plant.map = Val.str "Bind" := by
  have h := plant_extraction_policy c7w_event c7w_plant (by decide)
  exact ⟨h.1 (Val.str "A") (by decide), h.2.2.2.1 (by decide) (by decide)⟩

/-- C10: the plant and kill extraction helpers never return the error value
(their bodies perform only total dictionary lookups, so the `except` branch
is unreachable), and the per-record processing step emits exactly one plant
fact when the record is classified as a spike plant and exactly one kill
fact when classification succeeded and the record is classified as a kill;
the extraction-error skip path never fires for decoded records. -/
theorem extraction_never_fails (fname : String) (st : ParseResult) (event : PyDict) :
    extract_plant_info event ≠ none ∧ extract_kill_info event ≠ none ∧
    (processEvent fname st event).1.spike_plants.length
      = st.spike_plants.length + (if is_spike_plant event = some true then 1 else 0) ∧
    (processEvent fname st event).1.kills.length
      = st.kills.length
        + (if (is_spike_plant event).isSome = true ∧ is_kill event = some true then 1 else 0) := by
  refine ⟨by simp [extract_plant_info], by simp [extract_kill_info], ?_⟩
  cases hT : event_type_lower event with
  | none =>
    have hsp : is_spike_plant event = none := by simp [is_spike_plant, hT]
    have hk : is_kill event = none := by simp [is_kill, hT]
    rw [processEvent]
    rw [hsp]
    by_cases hprev : st.schema_preview.isNone <;>
      simp [hprev, hsp, hk]
  | some t =>
    have hsp : is_spike_plant event
        = some (strContains t "plant"
            || decide (pyGet event "type" = some (Val.str "plant_spike"))) := by
      simp [is_spike_plant, hT]
    have hk : is_kill event
        = some (strContains t "kill" || decide (pyGet event "type" = some (Val.str "kill"))) := by
      simp [is_kill, hT]
    rw [processEvent, hsp, extract_plant_info, extract_kill_info, hk]
    cases hb1 : (strContains t "plant"
        || decide (pyGet event "type" = some (Val.str "plant_spike"))) <;>
      cases hb2 : (strContains t "kill" || decide (pyGet event "type" = some (Val.str "kill"))) <;>
      by_cases hprev : st.schema_preview.isNone <;>
      simp [hprev, hsp, hb1, hk, hb2]

/-- C5: the Composition Frequency insufficient-data flag is true precisely
when no match contributed both a non-empty map list and at least one team
with a non-empty agent list. -/
theorem comp_frequency_insufficient_iff (series_data : List SeriesBundle) :
    (analyze_comp_frequency series_data).insufficient_data = true ↔
      ¬ ∃ s ∈ series_data, s.maps ≠ [] ∧ ∃ tc ∈ s.comps, tc.2.agents ≠ [] := by
  have hflag : (analyze_comp_frequency series_data).insufficient_data
      = series_data.all
          (fun s => !(!s.maps.isEmpty && !(s.comps.all (fun tc => tc.2.agents.isEmpty)))) := by
    show (comp_groups series_data).all (fun g => g.2.isEmpty) = _
    rw [comp_groups, allEmpty_comp_groups_aux]
    simp
  rw [hflag, List.all_eq_true]
  constructor
  · intro hall hex
    obtain ⟨s, hs, hmaps, tc, htc, hag⟩ := hex
    have hbool := hall s hs
    have hsplit : s.maps.isEmpty = true
        ∨ s.comps.all (fun tc => tc.2.agents.isEmpty) = true := by
      simpa using hbool
    rcases hsplit with h1 | h2
    · exact hmaps (List.isEmpty_iff.mp h1)
    · exact hag (List.isEmpty_iff.mp (List.all_eq_true.mp h2 tc htc))
  · intro hnex s hs
    by_contra hcon
    apply hnex
    have h2 : s.maps.isEmpty = false
        ∧ s.comps.all (fun tc => tc.2.agents.isEmpty) = false := by
      simpa using hcon
    obtain ⟨hm, ha⟩ := h2
    refine ⟨s, hs, ?_, ?_⟩
    · intro heq
      rw [heq] at hm
      simp at hm
    · obtain ⟨tc, htc, hne⟩ := List.all_eq_false.mp ha
      refine ⟨tc, htc, fun heq => hne ?_⟩
      simp [heq]

/-- C5 (witness): a single match with map data but no composition data
leaves the flag true. -/
theorem comp_frequency_insufficient_iff_witness :
    (analyze_comp_frequency c5_series).insufficient_data = true :=
  (comp_frequency_insufficient_iff c5_series).mpr (by decide)

/-- C6: within each map of the plant-site distribution, the per-site
percentages (each `round(count / total * 100, 1)`) sum to 100 up to a
rounding epsilon of at most 0.1 times the number of sites on that map. -/
theorem plant_site_percentages_sum (series_data : List SeriesBundle) (m : Val)
    (stats : SiteStats) (h : (m, stats) ∈ analyze_plant_sites series_data) :
    |(stats.percentages.map Prod.snd).sum - 100|
      ≤ (stats.percentages.length : ℚ) * (1/10) := by
  simp only [analyze_plant_sites, List.mem_filterMap] at h
  obtain ⟨g, hg, hsome⟩ := h
  by_cases hne : g.2.isEmpty
  · rw [if_pos hne] at hsome
    cases hsome
  · rw [if_neg hne] at hsome
    have hpair := Option.some.inj hsome
    have hstats : stats = mkSiteStats g.2 := by
      have hsnd := congrArg Prod.snd hpair
      simpa using hsnd.symm
    subst hstats
    refine mkSiteStats_pct_bound g.2 (fun heq => hne ?_)
    simp [heq]

/-- C6 (witness): the Bind distribution computed from a single plant on
site A has the percentage list [100], within 0.1 of 100. -/
theorem plant_site_percentages_sum_witness :
    |((c6_stats.percentages.map Prod.snd).sum) - 100|
      ≤ (c6_stats.percentages.length : ℚ) * (1/10) := by
  refine plant_site_percentages_sum c6_series (Val.str "Bind") c6_stats ?_
  have h100 : pyRound1 (100 : ℚ) = 100 := by
    have harg : (100 : ℚ) * 10 = ((1000 : ℤ) : ℚ) := by norm_num
    rw [pyRound1, pyRoundInt, harg, Int.floor_intCast]
    norm_num
  have hvc : value_counts [Val.str "A"] = [(Val.str "A", 1)] := by
    simp [value_counts, firstSeen, sortKeyDesc, insertKeyDesc]
  have hstats : mkSiteStats [Val.str "A"] = c6_stats := by
    rw [mkSiteStats, hvc]
    simp [c6_stats, h100]
  have hana : analyze_plant_sites c6_series = [(Val.str "Bind", c6_stats)] := by
    rw [← hstats]
    simp [analyze_plant_sites, c6_series, addToGroup, pyGetD, pyGet]
  rw [hana]
  exact List.mem_singleton.mpr rfl

end Valtracker
